import Mathlib

/-!
Verification of the upload-event processing core of the repository
(`lambda/s3_upload_logger.py`) against its natural-language specification.

The Python source is shallowly embedded: JSON-like event values become the
inductive type `JVal`; Python dict/attribute access that can raise becomes
`Except String`; the float arithmetic of `format_size` is modelled by exact
fractions (`PyNum`), which agrees with the IEEE double computation for every
size below 2^53 because division by 1024 is exact on binary floats; the
`.2f` format specifier is modelled by round-half-even at two decimals, which
is the rounding Python applies.  Environment configuration (`PROJECT_NAME`,
`ENVIRONMENT`) and the `datetime.now()` timestamp are passed in explicitly
as `Config` and `now`, since the handler reads them once per invocation.
-/

/-- Embedding of the Python `str.lower()` used by the source on file
extensions (ASCII case mapping, the identity on all other characters). -/
def pyLower (s : String) : String := ⟨s.data.map Char.toLower⟩

/-- Embedding of the Python `str.split` on the separator `"."`, at the level
of character lists: `pySplitDot cs` is the list of dot-free pieces of `cs`,
including empty pieces, exactly as `cs.split(".")` produces them. -/
def pySplitDot : List Char → List (List Char)
  | [] => [[]]
  | c :: cs =>
    if c = '.' then [] :: pySplitDot cs
    else (c :: (pySplitDot cs).headD []) :: (pySplitDot cs).tail

/-- Modelled from the spec: the substring after the last `.` of the key
(the spec describes the extension as "the substring after the last `.` in
the object key").  For a dot-free list this returns the whole list; the
spec only appeals to it when a dot is present. -/
def afterLastDot : List Char → List Char
  | [] => []
  | c :: cs =>
    if cs.contains '.' then afterLastDot cs
    else if c = '.' then cs else c :: afterLastDot cs

/-- Extension lists of the `categories` table of `categorize_file`. -/
def resumeExts : List String := ["pdf", "doc", "docx", "txt", "rtf", "odt"]

/-- Image extensions of the `categories` table. -/
def imageExts : List String := ["jpg", "jpeg", "png", "gif", "webp", "svg", "bmp", "ico"]

/-- Data extensions of the `categories` table. -/
def dataExts : List String := ["csv", "xlsx", "xls", "json", "xml", "yaml", "yml"]

/-- Archive extensions of the `categories` table. -/
def archiveExts : List String := ["zip", "tar", "gz", "rar", "7z"]

/-- Video extensions of the `categories` table. -/
def videoExts : List String := ["mp4", "avi", "mov", "mkv", "webm"]

/-- Audio extensions of the `categories` table. -/
def audioExts : List String := ["mp3", "wav", "flac", "aac", "ogg"]

/-- The `categories` dict literal of `categorize_file`, in source order
(Python dicts iterate in insertion order). -/
def categories : List (String × List String) :=
  [("resume", resumeExts), ("image", imageExts), ("data", dataExts),
   ("archive", archiveExts), ("video", videoExts), ("audio", audioExts)]

/-- Embedding of `categorize_file`: scan the `categories` table in order and
return the first category whose extension list contains the lower-cased
extension, else `"other"`. -/
def categorize_file (extension : String) : String :=
  match categories.find? (fun ce => ce.2.contains (pyLower extension)) with
  | some ce => ce.1
  | none => "other"

/-- Exact value of the Python float running through the `format_size` loop:
the fraction `num / den` with a positive denominator.  The loop only ever
divides by 1024, which is exact on binary floats up to 2^53, so this exact
model coincides with the float for all such sizes. -/
structure PyNum where
  num : ℤ
  den : ℕ
  den_pos : 0 < den

/-- Exact division by 1024, the only arithmetic `format_size` performs. -/
def PyNum.div1024 (x : PyNum) : PyNum :=
  ⟨x.num, x.den * 1024, Nat.mul_pos x.den_pos (by norm_num)⟩

/-- Rational value denoted by a `PyNum`. -/
def PyNum.toRat (x : PyNum) : ℚ := (x.num : ℚ) / (x.den : ℚ)

/-- The `size_names` tuple of `format_size`. -/
def size_names : List String := ["B", "KB", "MB", "GB", "TB"]

/-- Embedding of the `while size_bytes >= 1024 and i < len(size_names) - 1`
loop of `format_size`.  The loop increments `i` each iteration and stops at
the latest when `i` reaches 4, so running it with fuel 4 from `i = 0` is
exact: the fuel can never be exhausted while the guard still holds. -/
def formatSizeLoop : Nat → PyNum → Nat → PyNum × Nat
  | 0, v, i => (v, i)
  | fuel + 1, v, i =>
    if 1024 * (v.den : ℤ) ≤ v.num ∧ i < 4 then
      formatSizeLoop fuel v.div1024 (i + 1)
    else (v, i)

/-- Round-half-even of the fraction `t / den` (Python rounding of a float
to an integer number of hundredths once `t` is the value scaled by 100). -/
def roundHalfEven (t : ℤ) (den : ℕ) : ℤ :=
  let f := t.ediv den
  let r := t.emod den
  if 2 * r < (den : ℤ) then f
  else if (den : ℤ) < 2 * r then f + 1
  else if f.emod 2 = 0 then f else f + 1

/-- Embedding of the two-decimal f-string formatting applied to the final
value: the value rounded half-even to two decimal places, rendered with
exactly two fraction digits. -/
def PyNum.format2f (x : PyNum) : String :=
  let n := roundHalfEven (100 * x.num) x.den
  let q := n.ediv 100
  let r := (n.emod 100).toNat
  toString q ++ "." ++ (if r < 10 then "0" ++ toString r else toString r)

/-- Embedding of `format_size`: `"0 B"` for zero, otherwise the loop result
formatted to two decimals followed by a space and the unit from
`size_names`. -/
def format_size (size_bytes : ℤ) : String :=
  if size_bytes = 0 then "0 B"
  else
    let p := formatSizeLoop 4 ⟨size_bytes, 1, Nat.one_pos⟩ 0
    p.1.format2f ++ " " ++ size_names.getD p.2 ""

/-- JSON-like values, the shape of the Lambda `event` payload and of every
record inside it. -/
inductive JVal where
  | null
  | bool (b : Bool)
  | int (n : ℤ)
  | str (s : String)
  | arr (elems : List JVal)
  | obj (fields : List (String × JVal))

/-- First binding of a key in an object field list (Python dicts have
unique keys, so a faithful event object never repeats a key). -/
def lookupField (fs : List (String × JVal)) (k : String) : Option JVal :=
  (fs.find? (fun p => p.1 == k)).map (fun p => p.2)

/-- Embedding of the Python `v.get(k, d)` call: only dicts have a `get`
attribute; on anything else an `AttributeError` is raised. -/
def pyGet (v : JVal) (k : String) (d : JVal) : Except String JVal :=
  match v with
  | .obj fs => .ok ((lookupField fs k).getD d)
  | _ => .error "AttributeError"

/-- Embedding of calling `format_size` on the extracted size value: Python
ints format normally, bools are ints (`True` is 1), and every other value
raises a `TypeError` at the `size_bytes >= 1024` comparison (or formats as
a non-number), which the per-record handler treats as a record error. -/
def pyFormatSize (v : JVal) : Except String String :=
  match v with
  | .int n => .ok (format_size n)
  | .bool b => .ok (format_size (if b then 1 else 0))
  | _ => .error "TypeError"

/-- Embedding of the extension expression
`object_key.split(".")[-1].lower() if "." in object_key else "unknown"`.
The membership test raises `TypeError` on non-iterables; on a list or dict
it checks elements or keys, and a positive test then raises
`AttributeError` because lists and dicts have no `split`. -/
def pyExtensionOfKey (key : JVal) : Except String String :=
  match key with
  | .str s =>
    .ok (if s.data.contains '.' then pyLower ⟨(pySplitDot s.data).getLastD []⟩
         else "unknown")
  | .arr xs =>
    if xs.any (fun v => match v with | .str s => s == "." | _ => false) then
      .error "AttributeError"
    else .ok "unknown"
  | .obj fs =>
    if fs.any (fun p => p.1 == ".") then .error "AttributeError"
    else .ok "unknown"
  | _ => .error "TypeError"

/-- Embedding of `for record in ...`: lists iterate their elements, strings
iterate their characters, dicts iterate their keys, and every other value
raises `TypeError`. -/
def pyIterate (v : JVal) : Except String (List JVal) :=
  match v with
  | .arr xs => .ok xs
  | .str s => .ok (s.data.map (fun c => .str ⟨[c]⟩))
  | .obj fs => .ok (fs.map (fun p => .str p.1))
  | _ => .error "TypeError"

/-- Environment configuration read at the top of `lambda_handler`. -/
structure Config where
  project_name : String
  environment : String

/-- Defaults applied when `PROJECT_NAME` or `ENVIRONMENT` are unset. -/
def defaultConfig : Config := ⟨"job-portal", "dev"⟩

/-- The structured `log_entry` dict built for each record. -/
structure LogEntry where
  timestamp : JVal
  project : String
  environment : String
  event_type : JVal
  bucket : JVal
  object_key : JVal
  object_size_bytes : JVal
  object_size_readable : String
  source_ip : JVal
  user_identity : JVal

/-- One element of `processed_records`: the per-record output dict. -/
structure Entry where
  bucket : JVal
  key : JVal
  category : String

/-- Observable logging effect of processing one record: either the
structured success logging for the record, or the error logging of the
caught exception together with the raw record. -/
inductive LogEvent where
  | recordLogged (entry : LogEntry)
  | recordError (msg : String) (record : JVal)

/-- Embedding of the body of the `for record in event.get("Records", [])`
loop: field extraction, `log_entry` construction (including `format_size`
and the nested `get` calls, in source evaluation order) and file
categorization.  An `.error` result is a raised-and-caught per-record
exception. -/
def processRecord (cfg : Config) (now : String) (record : JVal) :
    Except String (LogEntry × Entry) := do
  let s3_info ← pyGet record "s3" (.obj [])
  let bucketObj ← pyGet s3_info "bucket" (.obj [])
  let bucket_name ← pyGet bucketObj "name" (.str "Unknown")
  let objectObjA ← pyGet s3_info "object" (.obj [])
  let object_key ← pyGet objectObjA "key" (.str "Unknown")
  let objectObjB ← pyGet s3_info "object" (.obj [])
  let object_size ← pyGet objectObjB "size" (.int 0)
  let event_time ← pyGet record "eventTime" (.str now)
  let event_name ← pyGet record "eventName" (.str "Unknown")
  let object_size_readable ← pyFormatSize object_size
  let reqParams ← pyGet record "requestParameters" (.obj [])
  let source_ip ← pyGet reqParams "sourceIPAddress" (.str "Unknown")
  let userIdent ← pyGet record "userIdentity" (.obj [])
  let user_identity ← pyGet userIdent "principalId" (.str "Unknown")
  let log_entry : LogEntry :=
    ⟨event_time, cfg.project_name, cfg.environment, event_name, bucket_name,
     object_key, object_size, object_size_readable, source_ip, user_identity⟩
  let file_extension ← pyExtensionOfKey object_key
  let file_category := categorize_file file_extension
  .ok (log_entry, ⟨bucket_name, object_key, file_category⟩)

/-- Embedding of the record loop with its per-record `try/except`: a record
whose processing raises is logged as an error and skipped; a successful
record appends its entry to `processed_records`. -/
def processAll (cfg : Config) (now : String) : List JVal → List Entry × List LogEvent
  | [] => ([], [])
  | r :: rs =>
    match processRecord cfg now r, processAll cfg now rs with
    | .ok (le, e), (es, ls) => (e :: es, .recordLogged le :: ls)
    | .error m, (es, ls) => (es, .recordError m r :: ls)

/-- The JSON body of the handler response. -/
structure ResponseBody where
  message : String
  records_processed : ℕ
  details : List Entry

/-- The handler response dict. -/
structure Response where
  statusCode : ℕ
  body : ResponseBody

/-- The fixed success message of the batch response. -/
def successMessage : String := "S3 upload event(s) logged successfully"

/-- Embedding of `lambda_handler`: read the `Records` list (an uncaught
`AttributeError` or `TypeError` if the event is not a dict or `Records` is
not iterable), process each record with the per-record `try/except`, and
return the fixed success response together with the emitted log events. -/
def lambda_handler (cfg : Config) (now : String) (event : JVal) :
    Except String (Response × List LogEvent) := do
  let recordsVal ← pyGet event "Records" (.arr [])
  let records ← pyIterate recordsVal
  let res := processAll cfg now records
  .ok (⟨200, ⟨successMessage, res.1.length, res.1⟩⟩, res.2)

/-- Is the value a JSON object (a Python dict)? -/
def JVal.isObj : JVal → Bool
  | .obj _ => true
  | _ => false

/-- Is the value a JSON string? -/
def JVal.isStr : JVal → Bool
  | .str _ => true
  | _ => false

/-- Is the value a non-negative JSON integer? -/
def JVal.isNatInt : JVal → Bool
  | .int n => decide (0 ≤ n)
  | _ => false

/-- Total counterpart of `pyGet`, used only to state what the extraction
produces on records where no exception occurs. -/
def jget (v : JVal) (k : String) (d : JVal) : JVal :=
  match v with
  | .obj fs => (lookupField fs k).getD d
  | _ => d

/-- Is `k` a present field of the object `v`? -/
def hasKey (v : JVal) (k : String) : Bool :=
  match v with
  | .obj fs => (lookupField fs k).isSome
  | _ => false

/-- Predicate on an optional field value: holds when the field is absent or
its value satisfies the check. -/
def optWF (o : Option JVal) (p : JVal → Bool) : Bool :=
  match o with
  | none => true
  | some v => p v

/-- Well-formedness of the `s3.object` sub-object per the input contract:
a dict whose `key`, when present, is a string and whose `size`, when
present, is a non-negative integer. -/
def s3ObjectWF (v : JVal) : Bool :=
  match v with
  | .obj fs => optWF (lookupField fs "key") JVal.isStr &&
      optWF (lookupField fs "size") JVal.isNatInt
  | _ => false

/-- Well-formedness of the `s3.bucket` sub-object: a dict whose `name`,
when present, is a string. -/
def s3BucketWF (v : JVal) : Bool :=
  match v with
  | .obj fs => optWF (lookupField fs "name") JVal.isStr
  | _ => false

/-- Well-formedness of the `s3` sub-object. -/
def s3WF (v : JVal) : Bool :=
  match v with
  | .obj fs => optWF (lookupField fs "bucket") s3BucketWF &&
      optWF (lookupField fs "object") s3ObjectWF
  | _ => false

/-- Well-formedness of the `requestParameters` sub-object. -/
def reqParamsWF (v : JVal) : Bool :=
  match v with
  | .obj fs => optWF (lookupField fs "sourceIPAddress") JVal.isStr
  | _ => false

/-- Well-formedness of the `userIdentity` sub-object. -/
def userIdentityWF (v : JVal) : Bool :=
  match v with
  | .obj fs => optWF (lookupField fs "principalId") JVal.isStr
  | _ => false

/-- Well-formed record per the input contract of the spec: a dict shaped
like `eventTime, eventName, s3: (bucket: (name), object: (key, size)),
requestParameters: (sourceIPAddress), userIdentity: (principalId)`, every
field optional, leaf fields of the stated types. -/
def wellFormedRecord (r : JVal) : Bool :=
  match r with
  | .obj fs =>
    optWF (lookupField fs "s3") s3WF &&
    optWF (lookupField fs "eventTime") JVal.isStr &&
    optWF (lookupField fs "eventName") JVal.isStr &&
    optWF (lookupField fs "requestParameters") reqParamsWF &&
    optWF (lookupField fs "userIdentity") userIdentityWF
  | _ => false

/-- Total counterpart of `pyExtensionOfKey` on the values it succeeds on,
used only to state results of successful processing. -/
def totalExtension (key : JVal) : String :=
  match key with
  | .str s =>
    if s.data.contains '.' then pyLower ⟨(pySplitDot s.data).getLastD []⟩
    else "unknown"
  | _ => "unknown"

/-- Total counterpart of `pyFormatSize` on the values it succeeds on. -/
def totalFormatSize (v : JVal) : String :=
  match v with
  | .int n => format_size n
  | .bool b => format_size (if b then 1 else 0)
  | _ => ""

/-- The `log_entry` a successfully processed record produces, stated
through total lookups with the defaults of the source. -/
def expectedLog (cfg : Config) (now : String) (r : JVal) : LogEntry :=
  let s3 := jget r "s3" (.obj [])
  { timestamp := jget r "eventTime" (.str now)
    project := cfg.project_name
    environment := cfg.environment
    event_type := jget r "eventName" (.str "Unknown")
    bucket := jget (jget s3 "bucket" (.obj [])) "name" (.str "Unknown")
    object_key := jget (jget s3 "object" (.obj [])) "key" (.str "Unknown")
    object_size_bytes := jget (jget s3 "object" (.obj [])) "size" (.int 0)
    object_size_readable := totalFormatSize (jget (jget s3 "object" (.obj [])) "size" (.int 0))
    source_ip := jget (jget r "requestParameters" (.obj [])) "sourceIPAddress" (.str "Unknown")
    user_identity := jget (jget r "userIdentity" (.obj [])) "principalId" (.str "Unknown") }

/-- The `processed_records` entry a successfully processed record
produces, stated through total lookups with the defaults of the source. -/
def expectedEntry (r : JVal) : Entry :=
  let s3 := jget r "s3" (.obj [])
  let key := jget (jget s3 "object" (.obj [])) "key" (.str "Unknown")
  { bucket := jget (jget s3 "bucket" (.obj [])) "name" (.str "Unknown")
    key := key
    category := categorize_file (totalExtension key) }

/-- The sample record of the local-testing block at the bottom of the
source file. -/
def sampleRecord : JVal :=
  .obj [("eventTime", .str "2024-12-01T12:00:00.000Z"),
        ("eventName", .str "ObjectCreated:Put"),
        ("s3", .obj [("bucket", .obj [("name", .str "job-portal-dev-files")]),
                     ("object", .obj [("key", .str "resumes/john_doe_resume.pdf"),
                                      ("size", .int 1024567)])]),
        ("requestParameters", .obj [("sourceIPAddress", .str "192.168.1.100")]),
        ("userIdentity", .obj [("principalId", .str "EXAMPLE123")])]

/-- ASCII lowering adds 32 to an upper-case letter code. -/
theorem charToLower_toNat (c : Char) (h : 65 ≤ c.toNat ∧ c.toNat ≤ 90) :
    (Char.toLower c).toNat = c.toNat + 32 := by
  unfold Char.toLower
  rw [if_pos ⟨h.1, h.2⟩]
  have hvalid : (c.toNat + 32).isValidChar := Or.inl (by omega)
  unfold Char.ofNat
  rw [dif_pos hvalid]
  rfl

/-- ASCII lowering fixes everything that is not an upper-case letter. -/
theorem charToLower_eq_self (c : Char) (h : ¬(65 ≤ c.toNat ∧ c.toNat ≤ 90)) :
    Char.toLower c = c := by
  unfold Char.toLower
  rw [if_neg (fun hc => h ⟨hc.1, hc.2⟩)]

/-- ASCII lowering is idempotent. -/
theorem charToLower_idem (c : Char) : c.toLower.toLower = c.toLower := by
  by_cases h : 65 ≤ c.toNat ∧ c.toNat ≤ 90
  · apply charToLower_eq_self
    rw [charToLower_toNat c h]
    omega
  · rw [charToLower_eq_self c h, charToLower_eq_self c h]

/-- The embedded `str.lower` is idempotent. -/
theorem pyLower_idem (s : String) : pyLower (pyLower s) = pyLower s := by
  unfold pyLower
  simp [List.map_map, Function.comp_def, charToLower_idem]

/-- Categorization only looks at the lower-cased extension, hence is
invariant under lowering its argument. -/
theorem categorize_file_pyLower (e : String) :
    categorize_file e = categorize_file (pyLower e) := by
  unfold categorize_file
  rw [pyLower_idem]

/-- A fraction whose numerator is below 1024 times its denominator denotes
a rational below 1024. -/
theorem toRat_lt_1024 (x : PyNum) (h : ¬(1024 * (x.den : ℤ) ≤ x.num)) :
    x.toRat < 1024 := by
  push_neg at h
  have hden : (0 : ℚ) < (x.den : ℚ) := by exact_mod_cast x.den_pos
  rw [PyNum.toRat, div_lt_iff₀ hden]
  calc (x.num : ℚ) < ((1024 * x.den : ℤ) : ℚ) := by exact_mod_cast h
    _ = 1024 * (x.den : ℚ) := by push_cast; ring

/-- The format loop keeps its unit index at most 4 and stops only once the
running value is below 1024 or the index has reached 4. -/
theorem formatSizeLoop_props (fuel : ℕ) : ∀ v i, i ≤ 4 → 4 ≤ fuel + i →
    (formatSizeLoop fuel v i).2 ≤ 4 ∧
    ((formatSizeLoop fuel v i).1.toRat < 1024 ∨ (formatSizeLoop fuel v i).2 = 4) := by
  induction fuel with
  | zero =>
    intro v i h1 h2
    have : i = 4 := by omega
    simp [formatSizeLoop, this]
  | succ n ih =>
    intro v i h1 h2
    rw [formatSizeLoop]
    split
    · rename_i hg
      exact ih _ (i + 1) (by omega) (by omega)
    · rename_i hg
      rcases Decidable.not_and_iff_or_not.mp hg with hv | hi
      · exact ⟨h1, Or.inl (toRat_lt_1024 v hv)⟩
      · exact ⟨h1, Or.inr (by omega)⟩

/-- Unit indices up to 4 select one of the five listed unit names. -/
theorem size_names_getD_mem (i : ℕ) (h : i ≤ 4) :
    size_names.getD i "" ∈ size_names := by
  interval_cases i <;> decide

/-- Counterexample to C3: on input 1024567 the code stops after a single
division (1024567 / 1024 is about 1000.55, already below 1024) and so
reports kilobytes, not the megabyte rendering the specification states. -/
theorem format_size_1024567_is_KB :
    format_size 1024567 = "1000.55 KB" ∧ format_size 1024567 ≠ "0.98 MB" := by
  decide

/-- Amended C3: `format_size` maps 0 to `"0 B"`, 1024 to `"1.00 KB"`,
1048576 to `"1.00 MB"`, and 1024567 to `"1000.55 KB"` (two decimal places,
a space, the unit symbol; the loop stops at KB because 1024567 / 1024 is
below 1024). -/
theorem format_size_concrete_values :
    format_size 0 = "0 B" ∧ format_size 1024 = "1.00 KB" ∧
    format_size 1048576 = "1.00 MB" ∧ format_size 1024567 = "1000.55 KB" := by
  decide

/-- Claim C4: for every non-zero byte count the loop stops exactly when the
running value drops below 1024 or the unit index reaches TB (index 4), the
emitted unit is always one of the five listed units, and 1024^5 is
reported in TB. -/
theorem format_size_unit_in_range :
    (∀ x : ℤ, x ≠ 0 →
      ((formatSizeLoop 4 ⟨x, 1, Nat.one_pos⟩ 0).1.toRat < 1024 ∨
        (formatSizeLoop 4 ⟨x, 1, Nat.one_pos⟩ 0).2 = 4) ∧
      (formatSizeLoop 4 ⟨x, 1, Nat.one_pos⟩ 0).2 ≤ 4 ∧
      ∃ u ∈ size_names, ∃ p, format_size x = p ++ " " ++ u) ∧
    format_size ((1024 : ℤ) ^ 5) = "1024.00 TB" := by
  constructor
  · intro x hx
    obtain ⟨h1, h2⟩ := formatSizeLoop_props 4 ⟨x, 1, Nat.one_pos⟩ 0 (by omega) (by omega)
    refine ⟨h2, h1, size_names.getD (formatSizeLoop 4 ⟨x, 1, Nat.one_pos⟩ 0).2 "",
      size_names_getD_mem _ h1, (formatSizeLoop 4 ⟨x, 1, Nat.one_pos⟩ 0).1.format2f, ?_⟩
    rw [format_size, if_neg hx]
  · decide

/-- Witness for C4: the theorem instantiated at the concrete size 5. -/
theorem format_size_unit_in_range_witness :
    ((formatSizeLoop 4 ⟨5, 1, Nat.one_pos⟩ 0).1.toRat < 1024 ∨
      (formatSizeLoop 4 ⟨5, 1, Nat.one_pos⟩ 0).2 = 4) ∧
    (formatSizeLoop 4 ⟨5, 1, Nat.one_pos⟩ 0).2 ≤ 4 ∧
    ∃ u ∈ size_names, ∃ p, format_size 5 = p ++ " " ++ u :=
  format_size_unit_in_range.1 5 (by decide)

/-- Claim C2: the categorization table behaves as specified: each listed
extension set maps to its category, an extension matching no table entry
maps to `"other"`, and the mapping is case-insensitive (invariant under
lowering the argument); concretely, `"PDF"` and `"pdf"` both map to
`"resume"` and `"xyz"` maps to `"other"`. -/
theorem categorize_file_table :
    (∀ e : String,
      (pyLower e ∈ resumeExts → categorize_file e = "resume") ∧
      (pyLower e ∈ imageExts → categorize_file e = "image") ∧
      (pyLower e ∈ dataExts → categorize_file e = "data") ∧
      (pyLower e ∈ archiveExts → categorize_file e = "archive") ∧
      (pyLower e ∈ videoExts → categorize_file e = "video") ∧
      (pyLower e ∈ audioExts → categorize_file e = "audio") ∧
      ((∀ ce ∈ categories, pyLower e ∉ ce.2) → categorize_file e = "other") ∧
      categorize_file e = categorize_file (pyLower e)) ∧
    categorize_file "PDF" = "resume" ∧ categorize_file "pdf" = "resume" ∧
    categorize_file "xyz" = "other" := by
  refine ⟨fun e => ⟨?_, ?_, ?_, ?_, ?_, ?_, ?_, categorize_file_pyLower e⟩, by decide, by decide, by decide⟩
  · intro h
    rw [categorize_file_pyLower]
    exact (by decide : ∀ x ∈ resumeExts, categorize_file x = "resume") _ h
  · intro h
    rw [categorize_file_pyLower]
    exact (by decide : ∀ x ∈ imageExts, categorize_file x = "image") _ h
  · intro h
    rw [categorize_file_pyLower]
    exact (by decide : ∀ x ∈ dataExts, categorize_file x = "data") _ h
  · intro h
    rw [categorize_file_pyLower]
    exact (by decide : ∀ x ∈ archiveExts, categorize_file x = "archive") _ h
  · intro h
    rw [categorize_file_pyLower]
    exact (by decide : ∀ x ∈ videoExts, categorize_file x = "video") _ h
  · intro h
    rw [categorize_file_pyLower]
    exact (by decide : ∀ x ∈ audioExts, categorize_file x = "audio") _ h
  · intro h
    unfold categorize_file
    rw [List.find?_eq_none.mpr (fun ce hce => by simpa using h ce hce)]

/-- Witness for C2: the table theorem instantiated at concrete extensions. -/
theorem categorize_file_table_witness :
    categorize_file "TXT" = "resume" ∧ categorize_file "Mp3" = "audio" ∧
    categorize_file "zzz" = "other" :=
  ⟨(categorize_file_table.1 "TXT").1 (by decide),
   (categorize_file_table.1 "Mp3").2.2.2.2.2.1 (by decide),
   (categorize_file_table.1 "zzz").2.2.2.2.2.2.1 (by decide)⟩

/-- Splitting always yields at least one piece. -/
theorem pySplitDot_ne_nil : ∀ cs : List Char, pySplitDot cs ≠ [] := by
  intro cs
  cases cs with
  | nil => simp [pySplitDot]
  | cons c cs =>
    rw [pySplitDot]
    by_cases h : c = '.' <;> simp [h]

/-- Splitting yields one piece per dot plus one. -/
theorem pySplitDot_length : ∀ cs : List Char,
    (pySplitDot cs).length = cs.count '.' + 1 := by
  intro cs
  induction cs with
  | nil => rfl
  | cons c cs ih =>
    obtain ⟨p, ps, hs⟩ : ∃ p ps, pySplitDot cs = p :: ps := by
      cases h : pySplitDot cs with
      | nil => exact absurd h (pySplitDot_ne_nil cs)
      | cons p ps => exact ⟨p, ps, rfl⟩
    rw [hs] at ih
    simp only [List.length_cons] at ih
    by_cases h : c = '.'
    · rw [pySplitDot, if_pos h, hs]
      simp [List.count_cons, h, ih]
    · rw [pySplitDot, if_neg h, hs]
      simp only [List.headD_cons, List.tail_cons, List.length_cons, List.count_cons]
      have : ('.' == c) = false := by
        simp [Ne.symm h]
      simp [this, ih, h]

/-- A dot-free list splits into the single piece that is the whole list. -/
theorem pySplitDot_no_dot : ∀ cs : List Char, '.' ∉ cs → pySplitDot cs = [cs] := by
  intro cs
  induction cs with
  | nil => intro _; rfl
  | cons c cs ih =>
    intro h
    simp only [List.mem_cons, not_or] at h
    obtain ⟨h1, h2⟩ := h
    rw [pySplitDot, if_neg (Ne.symm h1), ih h2]
    rfl

/-- On a dot-free list the suffix after the last dot is the whole list. -/
theorem afterLastDot_no_dot : ∀ cs : List Char, '.' ∉ cs → afterLastDot cs = cs := by
  intro cs
  induction cs with
  | nil => intro _; rfl
  | cons c cs ih =>
    intro h
    simp only [List.mem_cons, not_or] at h
    obtain ⟨h1, h2⟩ := h
    have hdot : ¬ (cs.contains '.' = true) := by
      simpa using h2
    rw [afterLastDot, if_neg hdot, if_neg (Ne.symm h1), ih h2]

/-- The last piece of the split is exactly the suffix after the last dot,
relating the source expression `split(".")[-1]` to the wording of the
spec. -/
theorem getLastD_pySplitDot : ∀ cs : List Char,
    (pySplitDot cs).getLastD [] = afterLastDot cs := by
  intro cs
  induction cs with
  | nil => rfl
  | cons c cs ih =>
    obtain ⟨p, ps, hs⟩ : ∃ p ps, pySplitDot cs = p :: ps := by
      cases h : pySplitDot cs with
      | nil => exact absurd h (pySplitDot_ne_nil cs)
      | cons p ps => exact ⟨p, ps, rfl⟩
    rw [hs] at ih
    by_cases hc : c = '.'
    · rw [pySplitDot, if_pos hc, afterLastDot]
      by_cases hdot : '.' ∈ cs
      · rw [if_pos (by simpa using hdot), ← ih, hs, List.getLastD_cons]
      · rw [if_neg (by simpa using hdot), if_pos hc]
        have heq := pySplitDot_no_dot cs hdot
        rw [heq]
        rfl
    · rw [pySplitDot, if_neg hc, hs, afterLastDot]
      simp only [List.headD_cons, List.tail_cons]
      cases ps with
      | nil =>
        have hlen := pySplitDot_length cs
        rw [hs] at hlen
        simp only [List.length_cons, List.length_nil] at hlen
        have hcount : cs.count '.' = 0 := by omega
        have hmem : '.' ∉ cs := List.count_eq_zero.mp hcount
        rw [if_neg (by simpa using hmem), if_neg hc, afterLastDot_no_dot cs hmem]
        have heq := pySplitDot_no_dot cs hmem
        rw [heq] at hs
        have hp : p = cs := by
          cases hs
          rfl
        subst hp
        rfl
      | cons q qs =>
        have hlen := pySplitDot_length cs
        rw [hs] at hlen
        simp only [List.length_cons] at hlen
        have hcount : cs.count '.' ≠ 0 := by omega
        have hmem : '.' ∈ cs := by
          by_contra hn
          exact hcount (List.count_eq_zero.mpr hn)
        rw [if_pos (by simpa using hmem), ← ih]
        rfl

/-- Claim C8: a key without a dot yields the literal extension `"unknown"` whose
category is `"other"`; a key with a dot yields the lower-cased suffix
after its last dot. -/
theorem extension_after_last_dot (s : String) :
    (s.data.contains '.' = false →
      pyExtensionOfKey (.str s) = .ok "unknown" ∧
      categorize_file "unknown" = "other") ∧
    (s.data.contains '.' = true →
      pyExtensionOfKey (.str s) = .ok (pyLower ⟨afterLastDot s.data⟩)) := by
  constructor
  · intro h
    refine ⟨?_, by decide⟩
    simp only [pyExtensionOfKey]
    rw [if_neg (by simp only [h]; exact Bool.false_ne_true)]
  · intro h
    simp only [pyExtensionOfKey]
    rw [if_pos h, getLastD_pySplitDot]

/-- Witness for C8: the default key `"Unknown"` has no dot and resolves to the
extension `"unknown"`; the sample key resolves to the suffix after its
last dot, lower-cased. -/
theorem extension_after_last_dot_witness :
    (pyExtensionOfKey (.str "Unknown") = .ok "unknown" ∧
      categorize_file "unknown" = "other") ∧
    pyExtensionOfKey (.str "resumes/john_doe_resume.pdf") =
      .ok (pyLower ⟨afterLastDot "resumes/john_doe_resume.pdf".data⟩) :=
  ⟨(extension_after_last_dot "Unknown").1 (by decide),
   (extension_after_last_dot "resumes/john_doe_resume.pdf").2 (by decide)⟩

/-- Can the value be formatted by `format_size` without a type error
(Python ints and bools)? -/
def JVal.isSizeable : JVal → Bool
  | .int _ => true
  | .bool _ => true
  | _ => false

/-- Bind of a successful `Except` computation. -/
theorem except_bind_ok {ε α β : Type} (a : α) (f : α → Except ε β) :
    (Except.ok a : Except ε α) >>= f = f a := rfl

/-- Bind of a failed `Except` computation. -/
theorem except_bind_err {ε α β : Type} (e : ε) (f : α → Except ε β) :
    (Except.error e : Except ε α) >>= f = Except.error e := rfl

/-- On a dict value, `pyGet` succeeds and returns the total lookup. -/
theorem pyGet_obj (fs : List (String × JVal)) (k : String) (d : JVal) :
    pyGet (.obj fs) k d = .ok (jget (.obj fs) k d) := rfl

/-- On any dict value, `pyGet` succeeds with the total lookup. -/
theorem pyGet_of_isObj (v : JVal) (h : v.isObj = true) (k : String) (d : JVal) :
    pyGet v k d = .ok (jget v k d) := by
  cases v <;> simp_all [pyGet, jget, JVal.isObj]

/-- On an int or bool size, formatting succeeds with the total format. -/
theorem pyFormatSize_of_isSizeable (v : JVal) (h : v.isSizeable = true) :
    pyFormatSize v = .ok (totalFormatSize v) := by
  cases v <;> simp_all [pyFormatSize, totalFormatSize, JVal.isSizeable]

/-- On a string key the extension expression succeeds with the total
extension. -/
theorem pyExtensionOfKey_of_isStr (v : JVal) (h : v.isStr = true) :
    pyExtensionOfKey v = .ok (totalExtension v) := by
  cases v <;> simp_all [pyExtensionOfKey, totalExtension, JVal.isStr]

/-- A checked optional field keeps any property implied by its check. -/
theorem optWF_getD (o : Option JVal) (p q : JVal → Bool) (d : JVal)
    (h : optWF o p = true) (hpq : ∀ w, p w = true → q w = true)
    (hd : q d = true) : q (o.getD d) = true := by
  cases o with
  | none => exact hd
  | some w => exact hpq w h

/-- A well-formed top-level component of a record is a dict after lookup
with a dict default. -/
theorem top_component_obj (fs : List (String × JVal)) (k : String)
    (p : JVal → Bool) (h : optWF (lookupField fs k) p = true)
    (hp : ∀ w, p w = true → w.isObj = true) :
    (jget (.obj fs) k (.obj [])).isObj = true := by
  simp only [jget]
  exact optWF_getD _ _ _ _ h hp rfl

/-- Shape facts of the `s3` sub-chain of a well-formed record: the bucket
and object components are dicts, the key is a string and the size is
formattable. -/
theorem s3_component_facts (fs : List (String × JVal))
    (h : optWF (lookupField fs "s3") s3WF = true) :
    (jget (jget (.obj fs) "s3" (.obj [])) "bucket" (.obj [])).isObj = true ∧
    (jget (jget (.obj fs) "s3" (.obj [])) "object" (.obj [])).isObj = true ∧
    (jget (jget (jget (.obj fs) "s3" (.obj [])) "object" (.obj [])) "key"
      (.str "Unknown")).isStr = true ∧
    (jget (jget (jget (.obj fs) "s3" (.obj [])) "object" (.obj [])) "size"
      (.int 0)).isSizeable = true := by
  simp only [jget]
  cases hl : lookupField fs "s3" with
  | none => decide
  | some x =>
    rw [hl] at h
    cases x with
    | obj sfs =>
      simp only [Option.getD_some]
      simp only [optWF, s3WF, Bool.and_eq_true] at h
      obtain ⟨hbucket, hobject⟩ := h
      refine ⟨?_, ?_, ?_, ?_⟩
      · exact optWF_getD _ _ _ _ hbucket
          (fun w hw => by cases w <;> simp_all [s3BucketWF, JVal.isObj]) rfl
      · exact optWF_getD _ _ _ _ hobject
          (fun w hw => by cases w <;> simp_all [s3ObjectWF, JVal.isObj]) rfl
      · cases ho : lookupField sfs "object" with
        | none => decide
        | some o =>
          rw [ho] at hobject
          cases o with
          | obj ofs =>
            simp only [Option.getD_some, jget]
            simp only [optWF, s3ObjectWF, Bool.and_eq_true] at hobject
            exact optWF_getD _ _ _ _ hobject.1
              (fun w hw => by cases w <;> simp_all [JVal.isStr]) rfl
          | _ => simp [optWF, s3ObjectWF] at hobject
      · cases ho : lookupField sfs "object" with
        | none => decide
        | some o =>
          rw [ho] at hobject
          cases o with
          | obj ofs =>
            simp only [Option.getD_some, jget]
            simp only [optWF, s3ObjectWF, Bool.and_eq_true] at hobject
            exact optWF_getD _ _ _ _ hobject.2
              (fun w hw => by cases w <;> simp_all [JVal.isNatInt, JVal.isSizeable]) rfl
          | _ => simp [optWF, s3ObjectWF] at hobject
    | null => simp [optWF, s3WF] at h
    | bool b => simp [optWF, s3WF] at h
    | int n => simp [optWF, s3WF] at h
    | str s => simp [optWF, s3WF] at h
    | arr xs => simp [optWF, s3WF] at h

/-- Master lemma: processing a well-formed record succeeds and produces
exactly the log entry and output entry given by the total lookups with the
defaults of the source. -/
theorem processRecord_wf (cfg : Config) (now : String) (r : JVal)
    (h : wellFormedRecord r = true) :
    processRecord cfg now r = .ok (expectedLog cfg now r, expectedEntry r) := by
  cases r with
  | obj fs =>
    rw [wellFormedRecord] at h
    simp only [Bool.and_eq_true] at h
    obtain ⟨⟨⟨⟨h_s3, h_time⟩, h_name⟩, h_req⟩, h_uid⟩ := h
    have F1 := top_component_obj fs "s3" s3WF h_s3
      (fun w hw => by cases w <;> simp_all [s3WF, JVal.isObj])
    have F6 := top_component_obj fs "requestParameters" reqParamsWF h_req
      (fun w hw => by cases w <;> simp_all [reqParamsWF, JVal.isObj])
    have F7 := top_component_obj fs "userIdentity" userIdentityWF h_uid
      (fun w hw => by cases w <;> simp_all [userIdentityWF, JVal.isObj])
    obtain ⟨F2, F3, F4, F5⟩ := s3_component_facts fs h_s3
    rw [processRecord]
    simp only [pyGet_obj, except_bind_ok, pyGet_of_isObj _ F1,
      pyGet_of_isObj _ F2, pyGet_of_isObj _ F3, pyGet_of_isObj _ F6,
      pyGet_of_isObj _ F7, pyFormatSize_of_isSizeable _ F5,
      pyExtensionOfKey_of_isStr _ F4]
    rfl
  | null => simp [wellFormedRecord] at h
  | bool b => simp [wellFormedRecord] at h
  | int n => simp [wellFormedRecord] at h
  | str s => simp [wellFormedRecord] at h
  | arr xs => simp [wellFormedRecord] at h

/-- The collected entries are the per-record successes, in input order. -/
theorem processAll_fst (cfg : Config) (now : String) : ∀ rs : List JVal,
    (processAll cfg now rs).1 =
      rs.filterMap (fun r => (processRecord cfg now r).toOption.map Prod.snd) := by
  intro rs
  induction rs with
  | nil => rfl
  | cons r rs ih =>
    rw [List.filterMap_cons]
    cases hr : processRecord cfg now r with
    | ok pr =>
      obtain ⟨le, e⟩ := pr
      simp [processAll, hr, Except.toOption, ih]
    | error m =>
      simp [processAll, hr, Except.toOption, ih]

/-- The emitted log events: one success log per processed record, one
error log (with the raw record) per failed record, in input order. -/
theorem processAll_snd (cfg : Config) (now : String) : ∀ rs : List JVal,
    (processAll cfg now rs).2 =
      rs.map (fun r =>
        match processRecord cfg now r with
        | .ok (le, _) => LogEvent.recordLogged le
        | .error m => LogEvent.recordError m r) := by
  intro rs
  induction rs with
  | nil => rfl
  | cons r rs ih =>
    cases hr : processRecord cfg now r with
    | ok pr =>
      obtain ⟨le, e⟩ := pr
      simp [processAll, hr, ih]
    | error m =>
      simp [processAll, hr, ih]

/-- On a list of records that all process successfully, the entries
correspond one to one, in order, to the records. -/
theorem processAll_good (cfg : Config) (now : String) : ∀ rs : List JVal,
    (∀ r ∈ rs, ∃ le e, processRecord cfg now r = .ok (le, e)) →
    List.Forall₂ (fun r e => ∃ le, processRecord cfg now r = .ok (le, e))
      rs (processAll cfg now rs).1 := by
  intro rs
  induction rs with
  | nil => intro _; exact List.Forall₂.nil
  | cons r rs ih =>
    intro h
    obtain ⟨le, e, hr⟩ := h r (List.mem_cons_self r rs)
    have hrest := ih (fun x hx => h x (List.mem_cons_of_mem r hx))
    simp only [processAll, hr]
    exact List.Forall₂.cons ⟨le, hr⟩ hrest

/-- A lookup of an absent key returns the default. -/
theorem jget_of_not_hasKey (v : JVal) (k : String) (d : JVal)
    (h : hasKey v k = false) : jget v k d = d := by
  cases v with
  | obj fs =>
    simp only [hasKey, Option.isSome] at h
    cases hl : lookupField fs k with
    | none => simp [jget, hl]
    | some w => rw [hl] at h; simp at h
  | null => rfl
  | bool b => rfl
  | int n => rfl
  | str s => rfl
  | arr xs => rfl

/-- The handler on an event whose `Records` field is a list reduces to the
batch response over that list. -/
theorem lambda_handler_records (cfg : Config) (now : String) (rs : List JVal) :
    lambda_handler cfg now (.obj [("Records", .arr rs)]) =
      .ok (⟨200, ⟨successMessage, (processAll cfg now rs).1.length,
                  (processAll cfg now rs).1⟩⟩,
           (processAll cfg now rs).2) := rfl

/-- The per-record outcome visible in the response (success and the entry
produced) does not depend on the configuration or the current time, which
only enter the log entry. -/
theorem processRecord_det (cfg₁ : Config) (now₁ : String) (cfg₂ : Config)
    (now₂ : String) (r : JVal) :
    (processRecord cfg₁ now₁ r).map Prod.snd =
      (processRecord cfg₂ now₂ r).map Prod.snd := by
  cases r with
  | obj fs =>
    simp only [processRecord, pyGet_obj, except_bind_ok]
    cases pyGet (jget (JVal.obj fs) "s3" (JVal.obj [])) "bucket" (JVal.obj []) with
    | error e => rfl
    | ok bucketObj =>
      simp only [except_bind_ok]
      cases pyGet bucketObj "name" (JVal.str "Unknown") with
      | error e => rfl
      | ok bucket_name =>
        simp only [except_bind_ok]
        cases pyGet (jget (JVal.obj fs) "s3" (JVal.obj [])) "object" (JVal.obj []) with
        | error e => rfl
        | ok objectObj =>
          simp only [except_bind_ok]
          cases pyGet objectObj "key" (JVal.str "Unknown") with
          | error e => rfl
          | ok object_key =>
            simp only [except_bind_ok]
            cases pyGet objectObj "size" (JVal.int 0) with
            | error e => rfl
            | ok object_size =>
              simp only [except_bind_ok]
              cases pyFormatSize object_size with
              | error e => rfl
              | ok fmt =>
                simp only [except_bind_ok]
                cases pyGet (jget (JVal.obj fs) "requestParameters" (JVal.obj []))
                    "sourceIPAddress" (JVal.str "Unknown") with
                | error e => rfl
                | ok source_ip =>
                  simp only [except_bind_ok]
                  cases pyGet (jget (JVal.obj fs) "userIdentity" (JVal.obj []))
                      "principalId" (JVal.str "Unknown") with
                  | error e => rfl
                  | ok user_identity =>
                    simp only [except_bind_ok]
                    cases pyExtensionOfKey object_key with
                    | error e => rfl
                    | ok ext => rfl
  | null => rfl
  | bool b => rfl
  | int n => rfl
  | str s => rfl
  | arr xs => rfl

/-- The entry list of a batch does not depend on configuration or time. -/
theorem processAll_fst_det (cfg₁ : Config) (now₁ : String) (cfg₂ : Config)
    (now₂ : String) : ∀ rs : List JVal,
    (processAll cfg₁ now₁ rs).1 = (processAll cfg₂ now₂ rs).1 := by
  intro rs
  induction rs with
  | nil => rfl
  | cons r rs ih =>
    have hd := processRecord_det cfg₁ now₁ cfg₂ now₂ r
    cases h1 : processRecord cfg₁ now₁ r with
    | ok p1 =>
      cases h2 : processRecord cfg₂ now₂ r with
      | ok p2 =>
        obtain ⟨le1, e1⟩ := p1
        obtain ⟨le2, e2⟩ := p2
        rw [h1, h2] at hd
        simp only [Except.map, Except.ok.injEq] at hd
        simp [processAll, h1, h2, ih, hd]
      | error m =>
        rw [h1, h2] at hd
        simp [Except.map] at hd
    | error m1 =>
      cases h2 : processRecord cfg₂ now₂ r with
      | ok p2 =>
        rw [h1, h2] at hd
        simp [Except.map] at hd
      | error m2 =>
        simp [processAll, h1, h2, ih]

/-- Counterexample to C1: on a non-dict event (here the integer 0) the
`event.get` call raises an uncaught `AttributeError`, so the handler
returns no response at all, let alone one with status 200. -/
theorem lambda_handler_nonDict_raises :
    lambda_handler defaultConfig "2024-12-01T00:00:00" (JVal.int 0) =
      .error "AttributeError" := rfl

/-- Amended C1: whenever the handler returns a response at all (that is,
whenever the top-level `Records` extraction and iteration do not raise),
that response has status 200 and the fixed success message, regardless of
how many per-record errors occurred. -/
theorem lambda_handler_ok_always_200 (cfg : Config) (now : String)
    (event : JVal) (resp : Response) (logs : List LogEvent)
    (h : lambda_handler cfg now event = .ok (resp, logs)) :
    resp.statusCode = 200 ∧ resp.body.message = successMessage := by
  simp only [lambda_handler] at h
  cases hg : pyGet event "Records" (JVal.arr []) with
  | error e =>
    rw [hg] at h
    exact absurd h (by simp [except_bind_err])
  | ok rv =>
    rw [hg, except_bind_ok] at h
    cases hi : pyIterate rv with
    | error e =>
      rw [hi] at h
      exact absurd h (by simp [except_bind_err])
    | ok records =>
      rw [hi, except_bind_ok] at h
      simp only [Except.ok.injEq, Prod.mk.injEq] at h
      obtain ⟨hr, _⟩ := h
      subst hr
      exact ⟨rfl, rfl⟩

/-- Witness for C1: the theorem applied to the empty event dict, whose
response is concrete. -/
theorem lambda_handler_ok_always_200_witness :
    (Response.mk 200 ⟨successMessage, 0, []⟩).statusCode = 200 ∧
    (Response.mk 200 ⟨successMessage, 0, []⟩).body.message = successMessage :=
  lambda_handler_ok_always_200 defaultConfig "T" (JVal.obj [])
    ⟨200, ⟨successMessage, 0, []⟩⟩ [] rfl

/-- Claim C5: a batch of well-formed records yields status 200 with
`records_processed` equal to the batch length and one entry per record in
input order; in particular the empty batch yields count 0 and an empty
list rather than an error. -/
theorem lambda_handler_wellformed_batch (cfg : Config) (now : String)
    (records : List JVal)
    (hwf : ∀ r ∈ records, wellFormedRecord r = true) :
    ∃ resp logs,
      lambda_handler cfg now (.obj [("Records", .arr records)]) = .ok (resp, logs) ∧
      resp.statusCode = 200 ∧
      resp.body.records_processed = records.length ∧
      resp.body.details.length = records.length ∧
      List.Forall₂ (fun r e => ∃ le, processRecord cfg now r = .ok (le, e))
        records resp.body.details := by
  have hg := processAll_good cfg now records
    (fun r hr => ⟨_, _, processRecord_wf cfg now r (hwf r hr)⟩)
  exact ⟨_, _, lambda_handler_records cfg now records, rfl,
    hg.length_eq.symm, hg.length_eq.symm, hg⟩

/-- Witness for C5: the theorem applied to the one-record batch made of the
sample record of the source, and to the empty batch. -/
theorem lambda_handler_wellformed_batch_witness :
    (∃ resp logs,
      lambda_handler defaultConfig "T" (.obj [("Records", .arr [sampleRecord])]) =
        .ok (resp, logs) ∧
      resp.statusCode = 200 ∧
      resp.body.records_processed = [sampleRecord].length ∧
      resp.body.details.length = [sampleRecord].length ∧
      List.Forall₂ (fun r e => ∃ le, processRecord defaultConfig "T" r = .ok (le, e))
        [sampleRecord] resp.body.details) ∧
    (∃ resp logs,
      lambda_handler defaultConfig "T" (.obj [("Records", .arr ([] : List JVal))]) =
        .ok (resp, logs) ∧
      resp.statusCode = 200 ∧
      resp.body.records_processed = ([] : List JVal).length ∧
      resp.body.details.length = ([] : List JVal).length ∧
      List.Forall₂ (fun r e => ∃ le, processRecord defaultConfig "T" r = .ok (le, e))
        ([] : List JVal) resp.body.details) :=
  ⟨lambda_handler_wellformed_batch defaultConfig "T" [sampleRecord] (by decide),
   lambda_handler_wellformed_batch defaultConfig "T" [] (by decide)⟩

/-- Claim C6: a batch with one malformed record (one whose processing raises)
among otherwise well-formed records yields a success response whose count
is one less than the batch length, whose entries correspond exactly to the
good records in order, and whose log stream contains the error log with
the raw record; the error neither propagates nor aborts the batch. -/
theorem lambda_handler_skips_malformed (cfg : Config) (now : String)
    (pre post : List JVal) (bad : JVal) (msg : String)
    (hgood : ∀ r ∈ pre ++ post, wellFormedRecord r = true)
    (hbad : processRecord cfg now bad = .error msg) :
    ∃ resp logs,
      lambda_handler cfg now (.obj [("Records", .arr (pre ++ bad :: post))]) =
        .ok (resp, logs) ∧
      resp.statusCode = 200 ∧
      resp.body.message = successMessage ∧
      resp.body.records_processed + 1 = (pre ++ bad :: post).length ∧
      List.Forall₂ (fun r e => ∃ le, processRecord cfg now r = .ok (le, e))
        (pre ++ post) resp.body.details ∧
      LogEvent.recordError msg bad ∈ logs := by
  have hsplit : (processAll cfg now (pre ++ bad :: post)).1 =
      (processAll cfg now (pre ++ post)).1 := by
    rw [processAll_fst, processAll_fst, List.filterMap_append,
      List.filterMap_append, List.filterMap_cons]
    simp [hbad, Except.toOption]
  have hg := processAll_good cfg now (pre ++ post)
    (fun r hr => ⟨_, _, processRecord_wf cfg now r (hgood r hr)⟩)
  refine ⟨_, _, lambda_handler_records cfg now (pre ++ bad :: post), rfl, rfl,
    ?_, ?_, ?_⟩
  · rw [hsplit, ← hg.length_eq]
    simp
    omega
  · rw [hsplit]
    exact hg
  · rw [processAll_snd]
    have hmem : bad ∈ pre ++ bad :: post := by simp
    have := List.mem_map_of_mem (fun r =>
      match processRecord cfg now r with
      | .ok (le, _) => LogEvent.recordLogged le
      | .error m => LogEvent.recordError m r) hmem
    simp only [hbad] at this
    exact this

/-- Witness for C6: the theorem applied to the batch of the sample record
followed by the malformed record 0 (an integer has no `get` attribute). -/
theorem lambda_handler_skips_malformed_witness :
    ∃ resp logs,
      lambda_handler defaultConfig "T"
          (.obj [("Records", .arr ([sampleRecord] ++ JVal.int 0 :: []))]) =
        .ok (resp, logs) ∧
      resp.statusCode = 200 ∧
      resp.body.message = successMessage ∧
      resp.body.records_processed + 1 = ([sampleRecord] ++ JVal.int 0 :: []).length ∧
      List.Forall₂ (fun r e => ∃ le, processRecord defaultConfig "T" r = .ok (le, e))
        ([sampleRecord] ++ []) resp.body.details ∧
      LogEvent.recordError "AttributeError" (JVal.int 0) ∈ logs :=
  lambda_handler_skips_malformed defaultConfig "T" [sampleRecord] []
    (JVal.int 0) "AttributeError" (by decide) rfl

/-- Claim C7: on a well-formed record, extraction never raises, and every absent
field takes its documented default: absent size gives 0 (formatted
`"0 B"`), absent event time gives the current time, absent event name,
source IP and principal id give `"Unknown"`. -/
theorem processRecord_absent_defaults (cfg : Config) (now : String) (r : JVal)
    (hwf : wellFormedRecord r = true) :
    ∃ e, processRecord cfg now r = .ok (expectedLog cfg now r, e) ∧
      (hasKey r "eventTime" = false →
        (expectedLog cfg now r).timestamp = .str now) ∧
      (hasKey r "eventName" = false →
        (expectedLog cfg now r).event_type = .str "Unknown") ∧
      (hasKey (jget (jget r "s3" (.obj [])) "object" (.obj [])) "size" = false →
        (expectedLog cfg now r).object_size_bytes = .int 0 ∧
        (expectedLog cfg now r).object_size_readable = "0 B") ∧
      (hasKey (jget r "requestParameters" (.obj [])) "sourceIPAddress" = false →
        (expectedLog cfg now r).source_ip = .str "Unknown") ∧
      (hasKey (jget r "userIdentity" (.obj [])) "principalId" = false →
        (expectedLog cfg now r).user_identity = .str "Unknown") := by
  refine ⟨expectedEntry r, processRecord_wf cfg now r hwf, ?_, ?_, ?_, ?_, ?_⟩
  · intro h
    simp only [expectedLog]
    exact jget_of_not_hasKey r "eventTime" (.str now) h
  · intro h
    simp only [expectedLog]
    exact jget_of_not_hasKey r "eventName" (.str "Unknown") h
  · intro h
    simp only [expectedLog]
    rw [jget_of_not_hasKey _ "size" (.int 0) h]
    exact ⟨rfl, rfl⟩
  · intro h
    simp only [expectedLog]
    exact jget_of_not_hasKey _ "sourceIPAddress" (.str "Unknown") h
  · intro h
    simp only [expectedLog]
    exact jget_of_not_hasKey _ "principalId" (.str "Unknown") h

/-- Witness for C7: the theorem applied to the empty record, where every field
is absent. -/
theorem processRecord_absent_defaults_witness :
    ∃ e, processRecord defaultConfig "T0" (JVal.obj []) =
        .ok (expectedLog defaultConfig "T0" (JVal.obj []), e) ∧
      (hasKey (JVal.obj []) "eventTime" = false →
        (expectedLog defaultConfig "T0" (JVal.obj [])).timestamp = .str "T0") ∧
      (hasKey (JVal.obj []) "eventName" = false →
        (expectedLog defaultConfig "T0" (JVal.obj [])).event_type = .str "Unknown") ∧
      (hasKey (jget (jget (JVal.obj []) "s3" (.obj [])) "object" (.obj [])) "size" = false →
        (expectedLog defaultConfig "T0" (JVal.obj [])).object_size_bytes = .int 0 ∧
        (expectedLog defaultConfig "T0" (JVal.obj [])).object_size_readable = "0 B") ∧
      (hasKey (jget (JVal.obj []) "requestParameters" (.obj [])) "sourceIPAddress" = false →
        (expectedLog defaultConfig "T0" (JVal.obj [])).source_ip = .str "Unknown") ∧
      (hasKey (jget (JVal.obj []) "userIdentity" (.obj [])) "principalId" = false →
        (expectedLog defaultConfig "T0" (JVal.obj [])).user_identity = .str "Unknown") :=
  processRecord_absent_defaults defaultConfig "T0" (JVal.obj []) (by decide)

/-- Claim C9: the empty record is not treated as malformed: it processes
successfully with bucket and key both defaulting to the literal string
`"Unknown"`, category `"other"`, and it increments the processed count. -/
theorem empty_record_processed (cfg : Config) (now : String) :
    processRecord cfg now (JVal.obj []) =
      .ok (⟨.str now, cfg.project_name, cfg.environment, .str "Unknown",
            .str "Unknown", .str "Unknown", .int 0, "0 B", .str "Unknown",
            .str "Unknown"⟩,
           ⟨.str "Unknown", .str "Unknown", "other"⟩) ∧
    lambda_handler cfg now (.obj [("Records", .arr [JVal.obj []])]) =
      .ok (⟨200, ⟨successMessage, 1, [⟨.str "Unknown", .str "Unknown", "other"⟩]⟩⟩,
           [.recordLogged ⟨.str now, cfg.project_name, cfg.environment,
              .str "Unknown", .str "Unknown", .str "Unknown", .int 0, "0 B",
              .str "Unknown", .str "Unknown"⟩]) :=
  ⟨rfl, rfl⟩

/-- Mapping over a bind only requires the continuations to agree after the
mapping. -/
theorem except_map_bind_congr {ε α β γ : Type} (g : β → γ) (x : Except ε α)
    (f₁ f₂ : α → Except ε β) (h : ∀ v, (f₁ v).map g = (f₂ v).map g) :
    (x >>= f₁).map g = (x >>= f₂).map g := by
  cases x with
  | error e => rfl
  | ok v => exact h v

/-- Claim C10: the response part of the handler output is a deterministic
function of the event alone: configuration and current time can differ
arbitrarily between two invocations without changing the response
(status, message, count and details); they influence only the log
entries. -/
theorem lambda_handler_deterministic (cfg₁ : Config) (now₁ : String)
    (cfg₂ : Config) (now₂ : String) (event : JVal) :
    (lambda_handler cfg₁ now₁ event).map Prod.fst =
      (lambda_handler cfg₂ now₂ event).map Prod.fst := by
  simp only [lambda_handler]
  apply except_map_bind_congr
  intro rv
  apply except_map_bind_congr
  intro records
  simp only [Except.map]
  rw [processAll_fst_det cfg₁ now₁ cfg₂ now₂ records]
